import Mathlib

/-!
Verification of the daily-dragon OpenAI API service: prompt building,
request handling, JSON wire codecs and module wiring, embedded over
character lists.
-/

/-- Character-list strings, the carrier for all prompt manipulation. -/
abbrev Str := List Char

/-- The character list of a string literal. -/
def strData (s : String) : Str := s.data

/-- Boolean test: does the first list occur at the start of the second? -/
def pfx : Str → Str → Bool
  | [], _ => true
  | _ :: _, [] => false
  | a :: p, b :: s => decide (a = b) && pfx p s

/-- Boolean test: does the first list occur anywhere inside the second? -/
def substr (p : Str) : Str → Bool
  | [] => pfx p []
  | c :: s => pfx p (c :: s) || substr p s

/-- `p` starts `s`. -/
def PrefixOf (p s : Str) : Prop := ∃ t, p ++ t = s

/-- `p` occurs contiguously inside `s`. -/
def InfixOf (p s : Str) : Prop := ∃ u v, u ++ p ++ v = s

theorem pfx_iff (p s : Str) : pfx p s = true ↔ PrefixOf p s := by
  induction p generalizing s with
  | nil => simp [pfx, PrefixOf]
  | cons a p ih =>
    cases s with
    | nil =>
      simp [pfx, PrefixOf]
    | cons b s =>
      simp only [pfx, Bool.and_eq_true, decide_eq_true_eq, ih, PrefixOf]
      constructor
      · rintro ⟨rfl, t, rfl⟩
        exact ⟨t, rfl⟩
      · rintro ⟨t, h⟩
        cases h
        exact ⟨rfl, t, rfl⟩

theorem substr_iff (p s : Str) : substr p s = true ↔ InfixOf p s := by
  induction s with
  | nil =>
    simp only [substr, pfx_iff, PrefixOf, InfixOf]
    constructor
    · rintro ⟨t, h⟩
      exact ⟨[], t, h⟩
    · rintro ⟨u, v, h⟩
      rcases List.append_eq_nil.mp h with ⟨h1, h2⟩
      rcases List.append_eq_nil.mp h1 with ⟨rfl, rfl⟩
      exact ⟨v, h2⟩
  | cons c s ih =>
    simp only [substr, Bool.or_eq_true, pfx_iff, PrefixOf, ih, InfixOf]
    constructor
    · rintro (⟨t, h⟩ | ⟨u, v, h⟩)
      · exact ⟨[], t, by simpa using h⟩
      · exact ⟨c :: u, v, by simp [h]⟩
    · rintro ⟨u, v, h⟩
      cases u with
      | nil =>
        exact Or.inl ⟨v, by simpa using h⟩
      | cons a u =>
        right
        rcases List.cons_eq_cons.mp h with ⟨rfl, h2⟩
        exact ⟨u, v, h2⟩

theorem infixOf_trans {a b c : Str} (h1 : InfixOf a b) (h2 : InfixOf b c) :
    InfixOf a c := by
  rcases h1 with ⟨u1, v1, rfl⟩
  rcases h2 with ⟨u2, v2, rfl⟩
  exact ⟨u2 ++ u1, v1 ++ v2, by simp⟩

theorem prefixOf_infixOf {p s : Str} (h : PrefixOf p s) : InfixOf p s := by
  rcases h with ⟨t, rfl⟩
  exact ⟨[], t, by simp⟩

theorem infixOf_append_left {p t : Str} (s : Str) (h : InfixOf p t) :
    InfixOf p (s ++ t) := by
  rcases h with ⟨u, v, rfl⟩
  exact ⟨s ++ u, v, by simp⟩

theorem infixOf_append_right {p s : Str} (t : Str) (h : InfixOf p s) :
    InfixOf p (s ++ t) := by
  rcases h with ⟨u, v, rfl⟩
  exact ⟨u, v ++ t, by simp⟩

theorem mem_of_infixOf {p s : Str} {c : Char} (h : InfixOf p s) (hc : c ∈ p) :
    c ∈ s := by
  rcases h with ⟨u, v, rfl⟩
  simp [hc]

/-- Fuel-indexed engine behind `replaceAll`; with enough fuel it performs the
left-to-right, non-overlapping, non-rescanning replacement of Python
`str.replace`. -/
def replaceAllF (pat rep : Str) : Nat → Str → Str
  | _, [] => []
  | 0, s => s
  | n + 1, c :: s =>
    if pfx pat (c :: s) then rep ++ replaceAllF pat rep n (List.drop (pat.length - 1) s)
    else c :: replaceAllF pat rep n s

/-- Python `s.replace(pat, rep)`: scan left to right, replace each
non-overlapping occurrence of `pat` by `rep`, never rescanning `rep`. -/
def replaceAll (pat rep s : Str) : Str := replaceAllF pat rep s.length s

theorem replaceAllF_cons (pat rep : Str) (n : Nat) (c : Char) (s : Str) :
    replaceAllF pat rep (n + 1) (c :: s) =
      if pfx pat (c :: s) = true then
        rep ++ replaceAllF pat rep n (List.drop (pat.length - 1) s)
      else c :: replaceAllF pat rep n s := rfl

theorem replaceAllF_congr (pat rep : Str) :
    ∀ n m s, s.length ≤ n → s.length ≤ m →
      replaceAllF pat rep n s = replaceAllF pat rep m s := by
  intro n
  induction n with
  | zero =>
    intro m s hn _
    have : s = [] := List.length_eq_zero.mp (Nat.le_zero.mp hn)
    subst this
    cases m <;> rfl
  | succ n ih =>
    intro m s hn hm
    cases s with
    | nil => cases m <;> rfl
    | cons c s =>
      cases m with
      | zero => exact absurd hm (by simp)
      | succ m =>
        have hsn : s.length ≤ n := Nat.succ_le_succ_iff.mp (by simpa using hn)
        have hsm : s.length ≤ m := Nat.succ_le_succ_iff.mp (by simpa using hm)
        rw [replaceAllF_cons, replaceAllF_cons]
        by_cases hp : pfx pat (c :: s) = true
        · have hds : (List.drop (pat.length - 1) s).length ≤ s.length := by
            simp
          rw [if_pos hp, if_pos hp,
            ih m _ (le_trans hds hsn) (le_trans hds hsm)]
        · rw [if_neg hp, if_neg hp, ih m s hsn hsm]

/-- If `pat` never occurs in `s`, replacement leaves `s` unchanged. -/
theorem replaceAll_of_not_substr {pat rep s : Str} (h : substr pat s = false) :
    replaceAll pat rep s = s := by
  unfold replaceAll
  have main : ∀ n s, s.length ≤ n → substr pat s = false →
      replaceAllF pat rep n s = s := by
    intro n
    induction n with
    | zero =>
      intro s hn _
      have : s = [] := List.length_eq_zero.mp (Nat.le_zero.mp hn)
      subst this
      rfl
    | succ n ih =>
      intro s hn hs
      cases s with
      | nil => rfl
      | cons c s =>
        simp only [substr, Bool.or_eq_false_iff] at hs
        have hsn : s.length ≤ n := Nat.succ_le_succ_iff.mp (by simpa using hn)
        rw [replaceAllF_cons, if_neg (by simp [hs.1]), ih s hsn hs.2]
  exact main _ s le_rfl h

/-- Replacement of a pattern starting with `a` skips over any block that
does not contain `a` at all. -/
theorem replaceAll_append_of_not_mem {a : Char} {p rep s t : Str}
    (h : a ∉ s) :
    replaceAll (a :: p) rep (s ++ t) = s ++ replaceAll (a :: p) rep t := by
  unfold replaceAll
  have main : ∀ s t, a ∉ s →
      replaceAllF (a :: p) rep (s ++ t).length (s ++ t)
        = s ++ replaceAllF (a :: p) rep t.length t := by
    intro s
    induction s with
    | nil => intro t _; simp
    | cons c s ih =>
      intro t hmem
      have hac : ¬ (a = c) := fun h' => hmem (h' ▸ List.mem_cons_self c s)
      have hpfx : ¬ pfx (a :: p) (c :: (s ++ t)) = true := by
        simp [pfx, hac]
      have h1 : (c :: s) ++ t = c :: (s ++ t) := rfl
      have hrest : a ∉ s := fun h' => hmem (List.mem_cons_of_mem c h')
      rw [h1, List.length_cons, replaceAllF_cons, if_neg hpfx,
        ih t hrest, List.cons_append]
  exact main s t h

/-- Replacement fires on a literal occurrence of the pattern at the head. -/
theorem replaceAll_head_match {a : Char} {p rep t : Str} :
    replaceAll (a :: p) rep ((a :: p) ++ t) = rep ++ replaceAll (a :: p) rep t := by
  unfold replaceAll
  have h1 : (a :: p) ++ t = a :: (p ++ t) := rfl
  have hpfx : pfx (a :: p) (a :: (p ++ t)) = true := by
    rw [pfx_iff]
    exact ⟨t, by simp⟩
  have hdrop : List.drop ((a :: p).length - 1) (p ++ t) = t := by
    have : (a :: p).length - 1 = p.length := by simp
    rw [this, List.drop_left]
  rw [h1, List.length_cons, replaceAllF_cons, if_pos hpfx, hdrop,
    replaceAllF_congr (a :: p) rep (p ++ t).length t.length t (by simp) le_rfl]

/-- Combined rewriting step: an occurrence of the pattern after a block free
of the pattern head character is replaced, and scanning continues after it. -/
theorem replaceAll_surround {a : Char} {p rep s t : Str} (h : a ∉ s) :
    replaceAll (a :: p) rep (s ++ (a :: p) ++ t)
      = s ++ rep ++ replaceAll (a :: p) rep t := by
  rw [List.append_assoc, replaceAll_append_of_not_mem h, replaceAll_head_match,
    List.append_assoc]

/-- Python `", ".join(ws)`-style separator join. -/
def joinSep (sep : Str) : List Str → Str
  | [] => []
  | [w] => w
  | w :: x :: ws => w ++ sep ++ joinSep sep (x :: ws)

theorem mem_joinSep_infixOf {sep w : Str} :
    ∀ {ws : List Str}, w ∈ ws → InfixOf w (joinSep sep ws) := by
  intro ws
  induction ws with
  | nil => intro h; cases h
  | cons x rest ih =>
    intro hw
    cases rest with
    | nil =>
      rcases List.mem_singleton.mp hw with rfl
      exact ⟨[], [], by simp [joinSep]⟩
    | cons y rest' =>
      rcases List.mem_cons.mp hw with rfl | hmem
      · exact ⟨[], sep ++ joinSep sep (y :: rest'), by simp [joinSep]⟩
      · have : InfixOf w (joinSep sep (y :: rest')) := ih hmem
        have h2 := infixOf_append_left (x ++ sep) this
        simpa [joinSep, List.append_assoc] using h2

theorem not_mem_joinSep {c : Char} {sep : Str} (hc : c ∉ sep) :
    ∀ {ws : List Str}, (∀ w ∈ ws, c ∉ w) → c ∉ joinSep sep ws := by
  intro ws
  induction ws with
  | nil => intro _; simp [joinSep]
  | cons x rest ih =>
    intro hws
    cases rest with
    | nil => simpa [joinSep] using hws x (by simp)
    | cons y rest' =>
      have hx : c ∉ x := hws x (by simp)
      have hr : c ∉ joinSep sep (y :: rest') :=
        ih (fun w hw => hws w (List.mem_cons_of_mem x hw))
      simp [joinSep, List.mem_append, hx, hc, hr]

/-- The whitespace set of Python `str.rstrip()`. -/
def isPySpace (c : Char) : Bool :=
  decide (c = ' ') || decide (c = '\t') || decide (c = '\n') || decide (c = '\r')
    || decide (c = Char.ofNat 11) || decide (c = Char.ofNat 12)

/-- Python `s.rstrip()`: drop trailing whitespace characters. -/
def rstripL (s : Str) : Str := (s.reverse.dropWhile isPySpace).reverse

/-! ## The sentence-generation prompt (openai_service.get_sentences_for_translation) -/

/-- The `${words}` placeholder token. -/
def wordsPat : Str := strData "${words}"

/-- The `${n}` placeholder token. -/
def nPat : Str := strData "${n}"

/-- The `${targetLanguage}` placeholder token. -/
def tPat : Str := strData "${targetLanguage}"

/-- The separator of `", ".join(words)`. -/
def commaSep : Str := strData ", "

/-- `str(N)` for the fixed sentence count `N = 5`. -/
def nVal : Str := strData "5"

/-- The fixed `TARGET_LANGUAGE = "English"`. -/
def targetLanguageVal : Str := strData "English"

/-- Modelled from the spec: the prompt template file
`prompts/get_sentences_for_translation` is not part of the source tree; the
spec requires a static template containing the placeholder tokens `${words}`,
`${n}` and `${targetLanguage}`. -/
def sentencesTemplate : Str :=
  strData "Words: ${words}. Write ${n} sentences in ${targetLanguage} using these words."

/-- The prompt assembled by `get_sentences_for_translation`: three successive
literal replacements over the template, in source order. -/
def getSentencesPrompt (ws : List Str) : Str :=
  replaceAll tPat targetLanguageVal
    (replaceAll nPat nVal
      (replaceAll wordsPat (joinSep commaSep ws) sentencesTemplate))

/-- Template text before the `${words}` placeholder. -/
def tplW0 : Str := strData "Words: "

/-- Template text after the `${words}` placeholder. -/
def tplR1 : Str := strData ". Write ${n} sentences in ${targetLanguage} using these words."

/-- Text of `tplR1` before the `${n}` placeholder. -/
def tplA2 : Str := strData ". Write "

/-- Text of `tplR1` after the `${n}` placeholder. -/
def tplB2 : Str := strData " sentences in ${targetLanguage} using these words."

/-- Text of `tplB2` before the `${targetLanguage}` placeholder. -/
def tplA3 : Str := strData " sentences in "

/-- Text of `tplB2` after the `${targetLanguage}` placeholder. -/
def tplB3 : Str := strData " using these words."

theorem getSentencesPrompt_eq (ws : List Str)
    (hJ : ('$' : Char) ∉ joinSep commaSep ws) :
    getSentencesPrompt ws =
      tplW0 ++ joinSep commaSep ws ++ tplA2 ++ nVal ++ tplA3
        ++ targetLanguageVal ++ tplB3 := by
  have hW0 : ('$' : Char) ∉ tplW0 := by decide
  have hA2 : ('$' : Char) ∉ tplA2 := by decide
  have hA3 : ('$' : Char) ∉ tplA3 := by decide
  have e1 : sentencesTemplate = tplW0 ++ ('$' :: strData "{words}") ++ tplR1 := by decide
  have e2 : tplR1 = tplA2 ++ ('$' :: strData "{n}") ++ tplB2 := by decide
  have e3 : tplB2 = tplA3 ++ ('$' :: strData "{targetLanguage}") ++ tplB3 := by decide
  have hwp : wordsPat = '$' :: strData "{words}" := by decide
  have hnp : nPat = '$' :: strData "{n}" := by decide
  have htp : tPat = '$' :: strData "{targetLanguage}" := by decide
  unfold getSentencesPrompt
  rw [hwp, hnp, htp, e1, replaceAll_surround hW0,
    @replaceAll_of_not_substr ('$' :: strData "{words}")
      (joinSep commaSep ws) tplR1 (by decide)]
  rw [e2]
  rw [show tplW0 ++ joinSep commaSep ws ++ (tplA2 ++ ('$' :: strData "{n}") ++ tplB2)
      = (tplW0 ++ joinSep commaSep ws ++ tplA2) ++ ('$' :: strData "{n}") ++ tplB2 by
    simp [List.append_assoc]]
  rw [replaceAll_surround (by
    simp only [List.mem_append, not_or]
    exact ⟨⟨hW0, hJ⟩, hA2⟩)]
  rw [@replaceAll_of_not_substr ('$' :: strData "{n}") nVal tplB2 (by decide)]
  rw [e3]
  rw [show (tplW0 ++ joinSep commaSep ws ++ tplA2) ++ nVal
        ++ (tplA3 ++ ('$' :: strData "{targetLanguage}") ++ tplB3)
      = ((tplW0 ++ joinSep commaSep ws ++ tplA2) ++ nVal ++ tplA3)
        ++ ('$' :: strData "{targetLanguage}") ++ tplB3 by
    simp [List.append_assoc]]
  rw [replaceAll_surround (by
    simp only [List.mem_append, not_or]
    exact ⟨⟨⟨⟨hW0, hJ⟩, hA2⟩, by decide⟩, hA3⟩)]
  rw [@replaceAll_of_not_substr ('$' :: strData "{targetLanguage}")
      targetLanguageVal tplB3 (by decide)]

/-- C1 (amended): for every list of input words in which no word contains the
dollar character, the prompt built by `get_sentences_for_translation` contains
every input word as a literal substring, contains the comma-joined word list,
contains the substituted count value "5" and the target-language value
"English", and contains none of the placeholder tokens `${words}`, `${n}`,
`${targetLanguage}`. -/
theorem C1_sentences_prompt_amended (ws : List Str)
    (h : ∀ w ∈ ws, ('$' : Char) ∉ w) :
    (∀ w ∈ ws, InfixOf w (getSentencesPrompt ws)) ∧
    InfixOf (joinSep commaSep ws) (getSentencesPrompt ws) ∧
    InfixOf nVal (getSentencesPrompt ws) ∧
    InfixOf targetLanguageVal (getSentencesPrompt ws) ∧
    ¬ InfixOf wordsPat (getSentencesPrompt ws) ∧
    ¬ InfixOf nPat (getSentencesPrompt ws) ∧
    ¬ InfixOf tPat (getSentencesPrompt ws) := by
  have hJ : ('$' : Char) ∉ joinSep commaSep ws := not_mem_joinSep (by decide) h
  have E := getSentencesPrompt_eq ws hJ
  have hPd : ('$' : Char) ∉ getSentencesPrompt ws := by
    rw [E]
    simp only [List.mem_append, not_or]
    exact ⟨⟨⟨⟨⟨⟨by decide, hJ⟩, by decide⟩, by decide⟩, by decide⟩, by decide⟩,
      by decide⟩
  have hJP : InfixOf (joinSep commaSep ws) (getSentencesPrompt ws) := by
    rw [E]
    exact ⟨tplW0, tplA2 ++ nVal ++ tplA3 ++ targetLanguageVal ++ tplB3,
      by simp [List.append_assoc]⟩
  refine ⟨?_, hJP, ?_, ?_, ?_, ?_, ?_⟩
  · intro w hw
    exact infixOf_trans (mem_joinSep_infixOf hw) hJP
  · rw [E]
    exact ⟨tplW0 ++ joinSep commaSep ws ++ tplA2,
      tplA3 ++ targetLanguageVal ++ tplB3, by simp [List.append_assoc]⟩
  · rw [E]
    exact ⟨tplW0 ++ joinSep commaSep ws ++ tplA2 ++ nVal ++ tplA3, tplB3,
      by simp [List.append_assoc]⟩
  · intro hin
    exact hPd (mem_of_infixOf hin (by decide))
  · intro hin
    exact hPd (mem_of_infixOf hin (by decide))
  · intro hin
    exact hPd (mem_of_infixOf hin (by decide))

/-- C1 counterexample: with the input word list `["${n}"]`, the rendered
prompt does not contain the input word `${n}` as a literal substring — the
later replacement pass of the `${n}` placeholder rewrites the inserted word
to "5" — so the claim quantified over every list of input words fails. -/
theorem C1_counterexample :
    ¬ InfixOf (strData "${n}") (getSentencesPrompt [strData "${n}"]) := by
  intro h
  have hb := (substr_iff _ _).mpr h
  have hf : substr (strData "${n}") (getSentencesPrompt [strData "${n}"]) = false := by
    decide
  rw [hf] at hb
  cases hb

/-- C1 witness: the amended theorem at the concrete input `["book", "pen"]`:
the prompt contains "book, pen" and no `${words}` placeholder remains. -/
theorem C1_witness :
    InfixOf (strData "book, pen")
      (getSentencesPrompt [strData "book", strData "pen"]) ∧
    ¬ InfixOf wordsPat (getSentencesPrompt [strData "book", strData "pen"]) := by
  have T := C1_sentences_prompt_amended [strData "book", strData "pen"] (by decide)
  have hj : joinSep commaSep [strData "book", strData "pen"] = strData "book, pen" := by
    decide
  exact ⟨hj ▸ T.2.1, T.2.2.2.2.1⟩

/-! ## The translation-evaluation prompt (openai_service.evaluate_translations) -/

/-- One user submission to grade: `{word, sentence, translation}`. -/
structure TranslationItem where
  word : Str
  sentence : Str
  translation : Str
deriving DecidableEq

/-- Decimal rendering of a natural number, as Python `str(i + 1)` produces. -/
def natToStr (n : Nat) : Str := Nat.toDigits 10 n

/-- One numbered block of the evaluation prompt, the three f-string lines of
the source joined: index, sentence, user translation and target word. -/
def evalBlock (i : Nat) (t : TranslationItem) : Str :=
  natToStr (i + 1) ++ strData ". Sentence: \"" ++ t.sentence ++ strData "\"\n"
    ++ strData "User Translation: \"" ++ t.translation ++ strData "\"\n"
    ++ strData "Target Word: \"" ++ t.word ++ strData "\"\n"

/-- The blocks of `enumerate(data.translations)` from a starting index. -/
def blocksFrom : Nat → List TranslationItem → List Str
  | _, [] => []
  | i, t :: ts => evalBlock i t :: blocksFrom (i + 1) ts

/-- The `"\n"` separator of the block join. -/
def newlineSep : Str := strData "\n"

/-- Modelled from the spec: the prompt template file
`prompts/evaluate_translations` is not part of the source tree; the spec
requires static template text to which the numbered block is appended after
trimming trailing whitespace. -/
def evalTemplate : Str :=
  strData "Evaluate the following translations and give feedback for each item:\n"

/-- The prompt assembled by `evaluate_translations`: the rstripped template
followed directly by the newline-joined numbered blocks. -/
def getEvalPrompt (ts : List TranslationItem) : Str :=
  rstripL evalTemplate ++ joinSep newlineSep (blocksFrom 0 ts)

theorem blocksFrom_length :
    ∀ (k : Nat) (ts : List TranslationItem), (blocksFrom k ts).length = ts.length := by
  intro k ts
  induction ts generalizing k with
  | nil => rfl
  | cons t ts ih => simp [blocksFrom, ih]

theorem evalBlock_mem_blocksFrom :
    ∀ (ts : List TranslationItem) (k i : Nat) (h : i < ts.length),
      evalBlock (k + i) (ts.get ⟨i, h⟩) ∈ blocksFrom k ts := by
  intro ts
  induction ts with
  | nil =>
    intro k i h
    exact absurd h (by simp)
  | cons t ts ih =>
    intro k i h
    cases i with
    | zero =>
      simp only [Nat.add_zero, List.get]
      exact List.mem_cons_self _ _
    | succ i =>
      have h' : i < ts.length := Nat.succ_lt_succ_iff.mp (by simpa using h)
      have := ih (k + 1) i h'
      have hk : k + (i + 1) = (k + 1) + i := by omega
      rw [hk]
      exact List.mem_cons_of_mem _ (by simpa using this)

theorem fragSentence_infixOf_block (i : Nat) (t : TranslationItem) :
    InfixOf (natToStr (i + 1) ++ strData ". Sentence: \"" ++ t.sentence ++ strData "\"")
      (evalBlock i t) := by
  have eq : strData "\"\n" = strData "\"" ++ strData "\n" := rfl
  exact ⟨[], strData "\n" ++ strData "User Translation: \"" ++ t.translation
      ++ strData "\"\n" ++ strData "Target Word: \"" ++ t.word ++ strData "\"\n",
    by simp [evalBlock, eq, List.append_assoc]⟩

theorem fragUser_infixOf_block (i : Nat) (t : TranslationItem) :
    InfixOf (strData "User Translation: \"" ++ t.translation ++ strData "\"")
      (evalBlock i t) := by
  have eq : strData "\"\n" = strData "\"" ++ strData "\n" := rfl
  exact ⟨natToStr (i + 1) ++ strData ". Sentence: \"" ++ t.sentence ++ strData "\"\n",
    strData "\n" ++ strData "Target Word: \"" ++ t.word ++ strData "\"\n",
    by simp [evalBlock, eq, List.append_assoc]⟩

theorem fragTarget_infixOf_block (i : Nat) (t : TranslationItem) :
    InfixOf (strData "Target Word: \"" ++ t.word ++ strData "\"")
      (evalBlock i t) := by
  have eq : strData "\"\n" = strData "\"" ++ strData "\n" := rfl
  exact ⟨natToStr (i + 1) ++ strData ". Sentence: \"" ++ t.sentence ++ strData "\"\n"
      ++ strData "User Translation: \"" ++ t.translation ++ strData "\"\n",
    strData "\n", by simp [evalBlock, eq, List.append_assoc]⟩

/-- C2: for every translation-item list and valid 0-based position `i`, the
evaluation prompt contains the numbered fragments of the `i`-th item with
1-based index `i + 1` — `<index>. Sentence: "<sentence>"`,
`User Translation: "<translation>"`, `Target Word: "<word>"` — the block list
has exactly one block per input item, the blocks joined by newlines follow
the whitespace-trimmed template text, and at the single item
`{word: "test", sentence: "Test sentence.", translation: "Test translation."}`
the prompt contains `1. Sentence: "Test sentence."` and does not contain
`2.`. -/
theorem C2_eval_prompt (ts : List TranslationItem) (i : Nat) (h : i < ts.length) :
    (blocksFrom 0 ts).length = ts.length ∧
    PrefixOf (rstripL evalTemplate) (getEvalPrompt ts) ∧
    InfixOf (natToStr (i + 1) ++ strData ". Sentence: \""
        ++ (ts.get ⟨i, h⟩).sentence ++ strData "\"") (getEvalPrompt ts) ∧
    InfixOf (strData "User Translation: \""
        ++ (ts.get ⟨i, h⟩).translation ++ strData "\"") (getEvalPrompt ts) ∧
    InfixOf (strData "Target Word: \""
        ++ (ts.get ⟨i, h⟩).word ++ strData "\"") (getEvalPrompt ts) ∧
    InfixOf (strData "1. Sentence: \"Test sentence.\"")
      (getEvalPrompt
        [⟨strData "test", strData "Test sentence.", strData "Test translation."⟩]) ∧
    ¬ InfixOf (strData "2.")
      (getEvalPrompt
        [⟨strData "test", strData "Test sentence.", strData "Test translation."⟩]) := by
  have hb : evalBlock i (ts.get ⟨i, h⟩) ∈ blocksFrom 0 ts := by
    simpa using evalBlock_mem_blocksFrom ts 0 i h
  have hbp : InfixOf (evalBlock i (ts.get ⟨i, h⟩)) (getEvalPrompt ts) :=
    infixOf_append_left (rstripL evalTemplate) (mem_joinSep_infixOf hb)
  refine ⟨blocksFrom_length 0 ts,
    ⟨joinSep newlineSep (blocksFrom 0 ts), rfl⟩,
    infixOf_trans (fragSentence_infixOf_block i _) hbp,
    infixOf_trans (fragUser_infixOf_block i _) hbp,
    infixOf_trans (fragTarget_infixOf_block i _) hbp,
    (substr_iff _ _).mp (by decide), ?_⟩
  intro hin
  have hbt := (substr_iff _ _).mpr hin
  have hf : substr (strData "2.")
      (getEvalPrompt
        [⟨strData "test", strData "Test sentence.", strData "Test translation."⟩])
      = false := by decide
  rw [hf] at hbt
  cases hbt

/-- C2 witness: the theorem at the single concrete item of the claim, index 0:
the prompt contains the fragment with 1-based index 1 and the sentence. -/
theorem C2_witness :
    InfixOf (natToStr 1 ++ strData ". Sentence: \"" ++ strData "Test sentence."
        ++ strData "\"")
      (getEvalPrompt
        [⟨strData "test", strData "Test sentence.", strData "Test translation."⟩]) := by
  have T := C2_eval_prompt
    [⟨strData "test", strData "Test sentence.", strData "Test translation."⟩] 0
    (by decide)
  exact T.2.2.1

/-- C10: for the empty translation-item list, the evaluation prompt is exactly
the template text with trailing whitespace stripped — the numbered block is
empty, nothing further is appended, and prompt building is total. -/
theorem C10_empty_eval_prompt : getEvalPrompt [] = rstripL evalTemplate := by
  simp [getEvalPrompt, blocksFrom, joinSep]

/-! ## JSON wire format and the pydantic request/response models -/

/-- JSON values of the wire format. -/
inductive Json where
  | str (s : Str)
  | num (n : Int)
  | bool (b : Bool)
  | arr (xs : List Json)
  | obj (fields : List (String × Json))
  | null

/-- First value bound to a key in a JSON object. -/
def getField : List (String × Json) → String → Option Json
  | [], _ => none
  | (k, v) :: fs, key => if k = key then some v else getField fs key

/-- Failure modes of request-body validation. -/
inductive DecodeErr where
  | missingField (name : String)
  | typeMismatch
  | notAnObject
deriving DecidableEq

/-- Decode a JSON string value. -/
def decodeStr : Json → Except DecodeErr Str
  | .str s => .ok s
  | _ => .error .typeMismatch

/-- Decode a JSON integer value. -/
def decodeInt : Json → Except DecodeErr Int
  | .num n => .ok n
  | _ => .error .typeMismatch

/-- Decode a list of JSON string values. -/
def decodeStrs : List Json → Except DecodeErr (List Str)
  | [] => .ok []
  | j :: js =>
    match decodeStr j with
    | .error e => .error e
    | .ok s =>
      match decodeStrs js with
      | .error e => .error e
      | .ok ss => .ok (s :: ss)

/-- A required string field of a JSON object. -/
def strField (fs : List (String × Json)) (k : String) : Except DecodeErr Str :=
  match getField fs k with
  | none => .error (.missingField k)
  | some j => decodeStr j

/-- A required integer field of a JSON object. -/
def intField (fs : List (String × Json)) (k : String) : Except DecodeErr Int :=
  match getField fs k with
  | none => .error (.missingField k)
  | some j => decodeInt j

/-- Request body of POST /daily-dragon/practice/sentences: `{words: string[]}`. -/
structure WordsList where
  words : List Str
deriving DecidableEq

/-- One generated example of the sentence-list response schema. -/
structure SentenceItem where
  word : Str
  sentence : Str
deriving DecidableEq

/-- One graded result of the evaluation-list response schema. -/
structure TranslationEvaluationItem where
  sentence : Str
  translation : Str
  target_word : Str
  word_used : Str
  feedback : Str
  correct_sentence : Str
  score : Int
deriving DecidableEq

/-- Request body of POST /daily-dragon/practice/evaluate-translations:
`{translations: {word, sentence, translation}[]}`. -/
structure SentenceTranslationsToEvaluate where
  translations : List TranslationItem
deriving DecidableEq

def encodeWordsList (v : WordsList) : Json :=
  .obj [("words", .arr (v.words.map .str))]

def decodeWordsList : Json → Except DecodeErr WordsList
  | .obj fs =>
    match getField fs "words" with
    | none => .error (.missingField "words")
    | some (.arr xs) =>
      match decodeStrs xs with
      | .error e => .error e
      | .ok ws => .ok ⟨ws⟩
    | some _ => .error .typeMismatch
  | _ => .error .notAnObject

def encodeSentenceItem (v : SentenceItem) : Json :=
  .obj [("word", .str v.word), ("sentence", .str v.sentence)]

def decodeSentenceItem : Json → Except DecodeErr SentenceItem
  | .obj fs =>
    match strField fs "word" with
    | .error e => .error e
    | .ok w =>
      match strField fs "sentence" with
      | .error e => .error e
      | .ok s => .ok ⟨w, s⟩
  | _ => .error .notAnObject

def encodeTranslationItem (v : TranslationItem) : Json :=
  .obj [("word", .str v.word), ("sentence", .str v.sentence),
    ("translation", .str v.translation)]

def decodeTranslationItem : Json → Except DecodeErr TranslationItem
  | .obj fs =>
    match strField fs "word" with
    | .error e => .error e
    | .ok w =>
      match strField fs "sentence" with
      | .error e => .error e
      | .ok s =>
        match strField fs "translation" with
        | .error e => .error e
        | .ok t => .ok ⟨w, s, t⟩
  | _ => .error .notAnObject

def encodeTranslationEvaluationItem (v : TranslationEvaluationItem) : Json :=
  .obj [("sentence", .str v.sentence), ("translation", .str v.translation),
    ("target_word", .str v.target_word), ("word_used", .str v.word_used),
    ("feedback", .str v.feedback), ("correct_sentence", .str v.correct_sentence),
    ("score", .num v.score)]

def decodeTranslationEvaluationItem : Json → Except DecodeErr TranslationEvaluationItem
  | .obj fs =>
    match strField fs "sentence" with
    | .error e => .error e
    | .ok s =>
      match strField fs "translation" with
      | .error e => .error e
      | .ok t =>
        match strField fs "target_word" with
        | .error e => .error e
        | .ok tw =>
          match strField fs "word_used" with
          | .error e => .error e
          | .ok wu =>
            match strField fs "feedback" with
            | .error e => .error e
            | .ok fb =>
              match strField fs "correct_sentence" with
              | .error e => .error e
              | .ok cs =>
                match intField fs "score" with
                | .error e => .error e
                | .ok sc => .ok ⟨s, t, tw, wu, fb, cs, sc⟩
  | _ => .error .notAnObject

def decodeTranslationItems : List Json → Except DecodeErr (List TranslationItem)
  | [] => .ok []
  | j :: js =>
    match decodeTranslationItem j with
    | .error e => .error e
    | .ok t =>
      match decodeTranslationItems js with
      | .error e => .error e
      | .ok ts => .ok (t :: ts)

def encodeSentenceTranslationsToEvaluate (v : SentenceTranslationsToEvaluate) : Json :=
  .obj [("translations", .arr (v.translations.map encodeTranslationItem))]

def decodeSentenceTranslationsToEvaluate : Json → Except DecodeErr SentenceTranslationsToEvaluate
  | .obj fs =>
    match getField fs "translations" with
    | none => .error (.missingField "translations")
    | some (.arr xs) =>
      match decodeTranslationItems xs with
      | .error e => .error e
      | .ok ts => .ok ⟨ts⟩
    | some _ => .error .typeMismatch
  | _ => .error .notAnObject

theorem decodeStrs_map (l : List Str) : decodeStrs (l.map Json.str) = .ok l := by
  induction l with
  | nil => rfl
  | cons s l ih => simp [decodeStrs, decodeStr, ih]

theorem decodeTranslationItems_map (l : List TranslationItem) :
    decodeTranslationItems (l.map encodeTranslationItem) = .ok l := by
  induction l with
  | nil => rfl
  | cons t l ih =>
    simp [decodeTranslationItems, ih]
    rfl

/-- C8: encoding then decoding any SentenceItem, TranslationEvaluationItem,
WordsList, or TranslationItem through the wire JSON format yields the
original value. -/
theorem C8_roundtrip (si : SentenceItem) (tei : TranslationEvaluationItem)
    (wl : WordsList) (ti : TranslationItem) :
    decodeSentenceItem (encodeSentenceItem si) = .ok si ∧
    decodeTranslationEvaluationItem (encodeTranslationEvaluationItem tei) = .ok tei ∧
    decodeWordsList (encodeWordsList wl) = .ok wl ∧
    decodeTranslationItem (encodeTranslationItem ti) = .ok ti := by
  refine ⟨rfl, rfl, ?_, rfl⟩
  simp [encodeWordsList, decodeWordsList, getField, decodeStrs_map]

/-! ## Module wiring (openai_api.models and its importers) -/

/-- The names defined by `openai_api/models.py`. -/
def modelsDefinedNames : List String :=
  ["SentenceItem", "SentencesResponse", "TranslationEvaluationItem",
   "TranslationEvaluationResponse"]

/-- The names `openai_service.py` line 8 imports from `openai_api.models`. -/
def serviceImportsFromModels : List String :=
  ["SentencesResponse", "TranslationEvaluationResponse",
   "SentenceTranslationsToEvaluate"]

/-- Python from-import resolution: requesting a name a module does not define
fails with that name (an ImportError). -/
def resolveImports (defined : List String) : List String → Except String Unit
  | [] => .ok ()
  | n :: ns => if n ∈ defined then resolveImports defined ns else .error n

/-- Loading `openai_api.openai_service` resolves its from-import against the
names `openai_api.models` defines. -/
def loadOpenaiService : Except String Unit :=
  resolveImports modelsDefinedNames serviceImportsFromModels

/-- Loading `openai_api.openai_api_app` first loads `openai_service`. -/
def loadOpenaiApiApp : Except String Unit :=
  match loadOpenaiService with
  | .error e => .error e
  | .ok _ => .ok ()

/-- Loading `openai_api_handler` first loads `openai_api_app`. -/
def loadOpenaiApiHandler : Except String Unit :=
  match loadOpenaiApiApp with
  | .error e => .error e
  | .ok _ => .ok ()

/-- C3: `openai_service` imports `SentenceTranslationsToEvaluate` from
`openai_api.models`, but the models module does not define that name, so
loading the service module — and with it the HTTP app and the handler —
fails with an import error naming `SentenceTranslationsToEvaluate`. -/
theorem C3_import_failure :
    "SentenceTranslationsToEvaluate" ∈ serviceImportsFromModels ∧
    "SentenceTranslationsToEvaluate" ∉ modelsDefinedNames ∧
    loadOpenaiService = .error "SentenceTranslationsToEvaluate" ∧
    loadOpenaiApiApp = .error "SentenceTranslationsToEvaluate" ∧
    loadOpenaiApiHandler = .error "SentenceTranslationsToEvaluate" := by
  refine ⟨by decide, by decide, rfl, rfl, rfl⟩

/-! ## HTTP routes (openai_api_app) -/

/-- The declared request-body shape of a route. -/
inductive BodyShape where
  | wordsBody
  | translationsBody
deriving DecidableEq

/-- The routes registered on the FastAPI app, from the decorators
`@app.post("/daily-dragon/practice/sentences")` and
`@app.post("/daily-dragon/practice/evaluate-translations")`, with the body
model each handler declares. -/
def appRoutes : List (String × String × BodyShape) :=
  [("POST", "/daily-dragon/practice/sentences", .wordsBody),
   ("POST", "/daily-dragon/practice/evaluate-translations", .translationsBody)]

/-- Whether a route body shape rejects a JSON body. -/
def shapeRejects (shape : BodyShape) (j : Json) : Bool :=
  match shape with
  | .wordsBody =>
    match decodeWordsList j with
    | .ok _ => false
    | .error _ => true
  | .translationsBody =>
    match decodeSentenceTranslationsToEvaluate j with
    | .ok _ => false
    | .error _ => true

/-- C4 counterexample: the app registers no route with path
"/practice/sentences" nor "/practice/evaluate-translations"; every
registered path carries the "/daily-dragon" prefix. -/
theorem C4_counterexample :
    (∀ r ∈ appRoutes, r.2.1 ≠ "/practice/sentences") ∧
    (∀ r ∈ appRoutes, r.2.1 ≠ "/practice/evaluate-translations") := by
  decide

/-- C4 (amended): sentence generation is exposed at
POST /daily-dragon/practice/sentences accepting `{words: string[]}`, and
translation evaluation at POST /daily-dragon/practice/evaluate-translations
accepting `{translations: {word, sentence, translation}[]}`; these are the
only routes, and each accepts a well-shaped body of its declared form. -/
theorem C4_routes_amended :
    ("POST", "/daily-dragon/practice/sentences", BodyShape.wordsBody) ∈ appRoutes ∧
    ("POST", "/daily-dragon/practice/evaluate-translations",
        BodyShape.translationsBody) ∈ appRoutes ∧
    appRoutes.length = 2 ∧
    shapeRejects BodyShape.wordsBody
      (encodeWordsList ⟨[strData "book", strData "pen"]⟩) = false ∧
    shapeRejects BodyShape.translationsBody
      (encodeSentenceTranslationsToEvaluate
        ⟨[⟨strData "w", strData "s", strData "t"⟩]⟩) = false := by
  refine ⟨by decide, by decide, rfl, rfl, rfl⟩

/-! ## The completion client (openai_service.send_prompt) -/

/-- The structured-output schema requested from the provider. -/
inductive SchemaTag where
  | sentencesSchema
  | evaluationsSchema
deriving DecidableEq

/-- One chat message of the provider request. -/
structure ChatMessage where
  role : Str
  content : Str
deriving DecidableEq

/-- One choice of the provider response. -/
structure ChatChoice where
  message : ChatMessage
deriving DecidableEq

/-- The provider response: a list of choices. -/
structure ChatResponse where
  choices : List ChatChoice
deriving DecidableEq

/-- The provider request assembled by `send_prompt`. -/
structure ChatRequest where
  model : Str
  messages : List ChatMessage
  responseFormat : SchemaTag

/-- The fixed `MODEL_NAME = "gpt-4o-2024-08-06"`. -/
def MODEL_NAME : Str := strData "gpt-4o-2024-08-06"

/-- The request `send_prompt` passes to `client.chat.completions.parse`: the
fixed model and a single user-role message whose content is the prompt. -/
def sendPromptRequest (prompt : Str) (schema : SchemaTag) : ChatRequest :=
  ⟨MODEL_NAME, [⟨strData "user", prompt⟩], schema⟩

/-- `send_prompt`: invoke the provider once with the assembled request and
return `response.choices[0].message.content`; indexing an empty choices list
raises in Python, modelled as `none`. -/
def send_prompt (provider : ChatRequest → ChatResponse) (prompt : Str)
    (schema : SchemaTag) : Option Str :=
  match (provider (sendPromptRequest prompt schema)).choices with
  | [] => none
  | c :: _ => some c.message.content

/-- C6: for every prompt and schema, the request handed to the provider has
the fixed model identifier "gpt-4o-2024-08-06" and exactly one message, of
role "user" with the prompt as content; and whenever the provider response
has a first choice, `send_prompt` returns that choice's message content
verbatim. -/
theorem C6_send_prompt (prompt : Str) (schema : SchemaTag) :
    (sendPromptRequest prompt schema).model = strData "gpt-4o-2024-08-06" ∧
    (sendPromptRequest prompt schema).messages = [⟨strData "user", prompt⟩] ∧
    ∀ (provider : ChatRequest → ChatResponse) (c : ChatChoice)
      (rest : List ChatChoice),
      (provider (sendPromptRequest prompt schema)).choices = c :: rest →
      send_prompt provider prompt schema = some c.message.content := by
  refine ⟨rfl, rfl, ?_⟩
  intro provider c rest h
  simp [send_prompt, h]

/-- C6 witness: a constant provider with one choice; `send_prompt` returns
its content verbatim. -/
theorem C6_witness :
    send_prompt (fun _ => ⟨[⟨⟨strData "assistant", strData "payload"⟩⟩]⟩)
      (strData "hello") SchemaTag.sentencesSchema = some (strData "payload") :=
  (C6_send_prompt (strData "hello") SchemaTag.sentencesSchema).2.2
    (fun _ => ⟨[⟨⟨strData "assistant", strData "payload"⟩⟩]⟩)
    ⟨⟨strData "assistant", strData "payload"⟩⟩ [] rfl

/-! ## The decoded auth claims (auth/cognito.py, not in the source tree) -/

/-- Modelled from the spec: the decoded Cognito claims object
`DailyDragonCognitoToken` of `auth/cognito.py`, a module the source tree does
not contain (only its tests do). Every claim field is optional, the
email-verified flag defaults to false, and the wire claim "cognito:username"
is surfaced as the field `cognito_username` through an explicit alias. -/
structure DailyDragonCognitoToken where
  aud : Option Str
  auth_time : Option Int
  cognito_username : Option Str
  email : Option Str
  email_verified : Bool
  event_id : Option Str
  exp : Option Int
  iat : Option Int
  iss : Option Str
  jti : Option Str
  origin_jti : Option Str
  sub : Option Str
  token_use : Option Str
deriving DecidableEq

/-- An optional string claim: absent decodes to `none`. -/
def optStrClaim (fs : List (String × Json)) (k : String) :
    Except DecodeErr (Option Str) :=
  match getField fs k with
  | none => .ok none
  | some (.str s) => .ok (some s)
  | some _ => .error .typeMismatch

/-- An optional integer claim: absent decodes to `none`. -/
def optIntClaim (fs : List (String × Json)) (k : String) :
    Except DecodeErr (Option Int) :=
  match getField fs k with
  | none => .ok none
  | some (.num n) => .ok (some n)
  | some _ => .error .typeMismatch

/-- An optional boolean claim defaulting to `false` when unset. -/
def boolClaimDefaultFalse (fs : List (String × Json)) (k : String) :
    Except DecodeErr Bool :=
  match getField fs k with
  | none => .ok false
  | some (.bool b) => .ok b
  | some _ => .error .typeMismatch

/-- Decoding a claims object into `DailyDragonCognitoToken`; the
`cognito_username` field reads the wire name "cognito:username". -/
def decodeDailyDragonCognitoToken (j : Json) :
    Except DecodeErr DailyDragonCognitoToken :=
  match j with
  | .obj fs => do
    let aud ← optStrClaim fs "aud"
    let auth_time ← optIntClaim fs "auth_time"
    let cognito_username ← optStrClaim fs "cognito:username"
    let email ← optStrClaim fs "email"
    let email_verified ← boolClaimDefaultFalse fs "email_verified"
    let event_id ← optStrClaim fs "event_id"
    let exp ← optIntClaim fs "exp"
    let iat ← optIntClaim fs "iat"
    let iss ← optStrClaim fs "iss"
    let jti ← optStrClaim fs "jti"
    let origin_jti ← optStrClaim fs "origin_jti"
    let sub ← optStrClaim fs "sub"
    let token_use ← optStrClaim fs "token_use"
    return ⟨aud, auth_time, cognito_username, email, email_verified, event_id,
      exp, iat, iss, jti, origin_jti, sub, token_use⟩
  | _ => .error .notAnObject

/-- C9: a claims object with no recognized claims still decodes, every field
unset and the email-verified flag false; and the wire claim
"cognito:username" decodes into the `cognito_username` field. -/
theorem C9_token_decode :
    decodeDailyDragonCognitoToken (.obj [])
      = .ok ⟨none, none, none, none, false, none, none, none, none, none,
          none, none, none⟩ ∧
    ∀ name : Str,
      decodeDailyDragonCognitoToken (.obj [("cognito:username", .str name)])
        = .ok ⟨none, none, some name, none, false, none, none, none, none,
            none, none, none, none⟩ :=
  ⟨rfl, fun _ => rfl⟩

/-! ## Request handling: auth gate, validation, pipeline -/

/-- Authentication failures of the Auth Gate. -/
inductive AuthErr where
  | missingToken
  | invalidToken
  | expiredToken
deriving DecidableEq

/-- The observable outcome of one HTTP request. -/
inductive HttpOutcome where
  | authFailure (e : AuthErr)
  | validationFailure (e : DecodeErr)
  | success (payload : Option Str)

/-- One handled request together with how often the Prompt Builder and the
provider (Completion Client) were invoked while handling it. -/
structure Handled where
  outcome : HttpOutcome
  promptBuilds : Nat
  providerCalls : Nat

/-- Modelled from the spec: the Auth Gate (`auth.cognito` is not in the
source tree) and FastAPI's dependency dispatch reject a request whose bearer
token does not verify before the handler body runs; on success the body runs
the source pipeline of `create_practice_sentences`: build the
sentence-generation prompt and invoke the provider once via `send_prompt`. -/
def handleSentencesRequest
    (verify : Option Str → Except AuthErr DailyDragonCognitoToken)
    (provider : ChatRequest → ChatResponse)
    (token : Option Str) (body : Json) : Handled :=
  match verify token with
  | .error e => ⟨.authFailure e, 0, 0⟩
  | .ok _ =>
    match decodeWordsList body with
    | .error e => ⟨.validationFailure e, 0, 0⟩
    | .ok wl =>
      ⟨.success (send_prompt provider (getSentencesPrompt wl.words)
        .sentencesSchema), 1, 1⟩

/-- Modelled from the spec: like `handleSentencesRequest`, for the
`evaluate_translations` endpoint and its pipeline. -/
def handleEvaluateRequest
    (verify : Option Str → Except AuthErr DailyDragonCognitoToken)
    (provider : ChatRequest → ChatResponse)
    (token : Option Str) (body : Json) : Handled :=
  match verify token with
  | .error e => ⟨.authFailure e, 0, 0⟩
  | .ok _ =>
    match decodeSentenceTranslationsToEvaluate body with
    | .error e => ⟨.validationFailure e, 0, 0⟩
    | .ok data =>
      ⟨.success (send_prompt provider (getEvalPrompt data.translations)
        .evaluationsSchema), 1, 1⟩

/-- C5: on either endpoint, a request whose bearer token fails verification
(missing, invalid or expired) is answered with an authentication failure, and
neither the Prompt Builder nor the provider is invoked (both counts are 0). -/
theorem C5_auth_rejected_before_provider
    (verify : Option Str → Except AuthErr DailyDragonCognitoToken)
    (provider : ChatRequest → ChatResponse)
    (token : Option Str) (body : Json) (e : AuthErr)
    (h : verify token = .error e) :
    handleSentencesRequest verify provider token body
      = ⟨.authFailure e, 0, 0⟩ ∧
    handleEvaluateRequest verify provider token body
      = ⟨.authFailure e, 0, 0⟩ := by
  constructor <;> simp [handleSentencesRequest, handleEvaluateRequest, h]

/-- C5 witness: a missing bearer token on both endpoints at concrete inputs:
the provider invocation count is 0. -/
theorem C5_witness :
    handleSentencesRequest (fun _ => .error AuthErr.missingToken)
        (fun _ => ⟨[]⟩) none Json.null
      = ⟨.authFailure AuthErr.missingToken, 0, 0⟩ ∧
    handleEvaluateRequest (fun _ => .error AuthErr.missingToken)
        (fun _ => ⟨[]⟩) none Json.null
      = ⟨.authFailure AuthErr.missingToken, 0, 0⟩ :=
  C5_auth_rejected_before_provider (fun _ => .error AuthErr.missingToken)
    (fun _ => ⟨[]⟩) none Json.null AuthErr.missingToken rfl

/-- C7: on an authenticated request whose body fails its endpoint's declared
shape, the request is answered with a validation failure and neither the
Prompt Builder nor the provider is invoked (both counts are 0). -/
theorem C7_validation_rejected_before_pipeline
    (verify : Option Str → Except AuthErr DailyDragonCognitoToken)
    (provider : ChatRequest → ChatResponse)
    (token : Option Str) (body : Json)
    (claims : DailyDragonCognitoToken) (e1 e2 : DecodeErr)
    (hok : verify token = .ok claims)
    (h1 : decodeWordsList body = .error e1)
    (h2 : decodeSentenceTranslationsToEvaluate body = .error e2) :
    handleSentencesRequest verify provider token body
      = ⟨.validationFailure e1, 0, 0⟩ ∧
    handleEvaluateRequest verify provider token body
      = ⟨.validationFailure e2, 0, 0⟩ := by
  constructor <;>
    simp [handleSentencesRequest, handleEvaluateRequest, hok, h1, h2]

/-- C7 witness: the body `{}` omits the required field of each endpoint; an
authenticated request carrying it is rejected with a validation error and
invokes nothing. -/
theorem C7_witness :
    handleSentencesRequest
        (fun _ => .ok ⟨none, none, none, none, false, none, none, none, none,
          none, none, none, none⟩)
        (fun _ => ⟨[]⟩) none (Json.obj [])
      = ⟨.validationFailure (.missingField "words"), 0, 0⟩ ∧
    handleEvaluateRequest
        (fun _ => .ok ⟨none, none, none, none, false, none, none, none, none,
          none, none, none, none⟩)
        (fun _ => ⟨[]⟩) none (Json.obj [])
      = ⟨.validationFailure (.missingField "translations"), 0, 0⟩ :=
  C7_validation_rejected_before_pipeline
    (fun _ => .ok ⟨none, none, none, none, false, none, none, none, none,
      none, none, none, none⟩)
    (fun _ => ⟨[]⟩) none (Json.obj [])
    ⟨none, none, none, none, false, none, none, none, none, none, none, none,
      none⟩
    (.missingField "words") (.missingField "translations") rfl rfl rfl
